import Mathlib

/-!
Verification of the simpledroid PRONOM-export-to-DROID-signature pipeline
(`src/simpledroid/simpledroid.py`).

The Python source is shallowly embedded below.  Conventions of the embedding:

* A Python `str` value that may also be `None` (because `_get_node_value`
  returns `None` when a tag is absent) is modelled as `Option String`;
  `none` is Python `None`.
* A Python function that can raise an uncaught exception (`TypeError` from
  `re.fullmatch(pattern, None)` or from `int(None)`, `ValueError` from
  `int` on a non-numeric string, `AttributeError` from `escape(None)`) is
  modelled as returning `Option _`; `none` is the crash.  Logging side
  effects are not modelled: only the data-flow behaviour is.
* XML access is modelled at the boundary of `_get_node_value`: an element
  node is a record whose fields hold `some v` when the child tag is present
  with (already stripped) text `v`, and `none` when the tag is absent.
* Python string primitives (`strip`, `upper`, `replace`, `in`, `len`,
  `startswith`, f-string interpolation, `str.join`) are re-implemented over
  `List Char` so that every definition is executable and provable.  The
  inputs in this domain are ASCII, where these models agree with Python.
-/

/-- Python whitespace test as used by `str.strip()`; the characters that
actually occur around the strings of this program are spaces and newlines. -/
def wsChar (c : Char) : Bool :=
  c = ' ' || c = '\t' || c = '\r' || c = '\n'

/-- `str.strip()` over a character list: drop leading and trailing
whitespace. -/
def pyStripList (l : List Char) : List Char :=
  ((l.dropWhile wsChar).reverse.dropWhile wsChar).reverse

/-- Python `s.strip()`. -/
def pyStrip (s : String) : String :=
  ⟨pyStripList s.data⟩

/-- Python `str.replace(pat, rep)` over lists, for a single-character
pattern: every `str.replace` call in the source uses a one-character
pattern (`" "`, `"\n"`, `"&"`, `">"`, `"<"`), where Python's
non-overlapping left-to-right replacement is exactly per-character
substitution. -/
def replaceChar (pat : Char) (rep : List Char) : List Char → List Char
  | [] => []
  | c :: rest =>
    if c = pat then rep ++ replaceChar pat rep rest
    else c :: replaceChar pat rep rest

/-- Python `s.replace(pat, rep)` with a one-character pattern. -/
def pyReplace (s : String) (pat : Char) (rep : String) : String :=
  ⟨replaceChar pat rep.data s.data⟩

/-- `xml.sax.saxutils.escape`: `&` then `>` then `<`, in that order. -/
def pyEscape (s : String) : String :=
  pyReplace (pyReplace (pyReplace s '&' ("&amp;")) '>' ("&gt;")) '<' ("&lt;")

/-- Python `str.upper()` (ASCII domain). -/
def pyUpper (s : String) : String :=
  ⟨s.data.map Char.toUpper⟩

/-- Substring test over character lists (Python `pat in s`). -/
def containsSub (pat : List Char) : List Char → Bool
  | [] => pat.isPrefixOf []
  | c :: rest => pat.isPrefixOf (c :: rest) || containsSub pat rest

/-- Python `pat in s` for strings. -/
def substrB (pat s : String) : Bool :=
  containsSub pat.data s.data

/-- Python f-string interpolation of a possibly-`None` string:
`str(None)` renders as `"None"`. -/
def optStr : Option String → String
  | none => "None"
  | some s => s

/-- Decimal digit value. -/
def digitVal? (c : Char) : Option Nat :=
  if '0' ≤ c && c ≤ '9' then some (c.toNat - '0'.toNat) else none

/-- Parse a non-empty all-digit list (base 10); `none` otherwise. -/
def parseDigits : List Char → Option Nat
  | [] => none
  | l => l.foldlM (fun acc c => (digitVal? c).map (fun d => acc * 10 + d)) 0

/-- Python `int(s)` for a string: optional surrounding whitespace, optional
sign, decimal digits; `none` models the `ValueError` raised otherwise. -/
def pyIntStr (s : String) : Option Int :=
  match pyStripList s.data with
  | '-' :: rest => (parseDigits rest).map (fun n => -(n : Int))
  | '+' :: rest => (parseDigits rest).map (fun n => (n : Int))
  | l => (parseDigits l).map (fun n => (n : Int))

/-- Python `int(x)` where `x` is a `str` or `None`; `int(None)` raises
`TypeError`, modelled as `none`. -/
def pyInt : Option String → Option Int
  | none => none
  | some s => pyIntStr s

/-- Python truthiness test `x != ""` where `x` is a `str` or `None`
(`None != ""` is `True`). -/
def pyNeEmpty : Option String → Bool
  | none => true
  | some s => !(s = "")

/-- Evaluation of the conjunct `x != "" and int(x) > 0` appearing in
`calculate_variable_off_bof` / `_eof`, with Python short-circuiting:
when `x == ""` the `int` call is skipped, otherwise `int(x)` may raise
(`none`). -/
def posBound (x : Option String) : Option Bool :=
  if pyNeEmpty x then
    (pyInt x).map (fun v => 0 < v)
  else
    some false

/-! ## Data model (the Python dataclasses)

Fields that the source can populate with `None` are `Option String`. -/

structure ExternalSignature where
  id : Option String
  signature : Option String
  type : Option String
deriving DecidableEq, Repr

structure ByteSequence where
  id : Option String
  pos : String
  min_off : Option String
  max_off : Option String
  endian : Option String
  value : String
deriving DecidableEq, Repr

structure InternalSignature where
  id : Option String
  name : Option String
  byte_sequences : List ByteSequence
deriving DecidableEq, Repr

structure Priority where
  type : Option String
  id : Option String
deriving DecidableEq, Repr

structure Format where
  id : Option String
  name : String
  version : String
  puid : Option String
  mime : Option String
  classification : Option String
  external_signatures : List ExternalSignature
  internal_signatures : List InternalSignature
  priorities : List Priority
deriving DecidableEq, Repr

/-! ## Signature encoder: `calculate_variable_off_bof` / `_eof`
(source lines 158-189).

The Python condition chain is

```
if min != "" and int(min) > 0 and max != "" and int(max) > 0: ...range...
elif max != "" and int(max) > 0: ...0-max...
elif min != "" and int(min) > 0: ...fixed...
```

with left-to-right short-circuit evaluation; `int` may raise, which the
embedding propagates as `none`.  When the first two conjuncts of the first
condition hold, `max` has been evaluated by the time the `elif` chain is
reached, so the decision tree below evaluates each bound at most once, in
the same order as Python. -/

/-- The quantifier-building part shared by both anchors: `none` means no
quantifier applies, `some q` is the quantifier text `q`. -/
def offQuantifier (item : ByteSequence) : Option (Option String) :=
  match posBound item.min_off with
  | none => none
  | some true =>
    match posBound item.max_off with
    | none => none
    | some true =>
      match pyInt item.min_off, pyInt item.max_off with
      | some m, some mx =>
        some (some ("\x7b" ++ optStr item.min_off ++ "-" ++ toString (m + mx) ++ "\x7d"))
      | _, _ => none
    | some false =>
      some (some ("\x7b" ++ optStr item.min_off ++ "\x7d"))
  | some false =>
    match posBound item.max_off with
    | none => none
    | some true =>
      some (some ("\x7b0-" ++ optStr item.max_off ++ "\x7d"))
    | some false => some none

/-- `calculate_variable_off_bof` (source lines 158-172): quantifier becomes
a prefix of the value. -/
def calculate_variable_off_bof (item : ByteSequence) : Option String :=
  (offQuantifier item).map fun q =>
    match q with
    | none => item.value
    | some quant => quant ++ item.value

/-- `calculate_variable_off_eof` (source lines 175-189): quantifier becomes
a suffix of the value. -/
def calculate_variable_off_eof (item : ByteSequence) : Option String :=
  (offQuantifier item).map fun q =>
    match q with
    | none => item.value
    | some quant => item.value ++ quant

/-! ## Byte-sequence validation: `get_bytes` (source lines 406-471). -/

/-- Character class of `PRONOM_REGEX_ALLOWED = ^[a-fA-F0-9\*\[\]??!&|(){}:-]+$`
(source line 59). -/
def allowedChar (c : Char) : Bool :=
  ('a' ≤ c && c ≤ 'f') || ('A' ≤ c && c ≤ 'F') || ('0' ≤ c && c ≤ '9') ||
    c = '*' || c = '[' || c = ']' || c = '?' || c = '!' || c = '&' ||
    c = '|' || c = '(' || c = ')' || c = '\x7b' || c = '\x7d' ||
    c = ':' || c = '-'

/-- `re.fullmatch(PRONOM_REGEX_ALLOWED, v)` succeeds iff `v` is non-empty
and every character is in the class. -/
def valid_sig (s : String) : Bool :=
  !s.data.isEmpty && s.data.all allowedChar

/-- The substrings tested by the source's pattern gate (source lines
448-452): `("??", "(", ")", "|", "{", "}", ":", "-", "[", "]", "*")`.
Note the double `??` and the absence of single `?`, `!` and `&`. -/
def gateSubs : List String :=
  ["??", "(", ")", "|", "\x7b", "\x7d", ":", "-", "[", "]", "*"]

/-- Truthiness of the source's list comprehension: at least one of the
gate substrings occurs in the value. -/
def patternGate (s : String) : Bool :=
  gateSubs.any (fun p => substrB p s)

/-- `pre_process_signature` (source lines 257-261):
`item.strip().upper().replace(" ", "")`. -/
def pre_process_signature (item : String) : String :=
  pyReplace (pyUpper (pyStrip item)) ' ' ("")

/-- The value actually stored for an accepted sequence: pre-processed, and
escaped when it contains an ampersand (source lines 457-460). -/
def finalize_value (seq_value : String) : String :=
  let s := pre_process_signature seq_value
  if substrB ("&") s then pyEscape s else s

/-! ### Input-side node records

Each record models one XML element as seen through `_get_node_value`
(source lines 264-269): a field is `some v` when the child tag exists and
has text content `v` (already stripped), `none` when the tag is absent. -/

structure BSNode where
  byteSequenceID : Option String
  positionType : Option String
  offset : Option String
  maxOffset : Option String
  endianness : Option String
  byteSequenceValue : Option String
deriving DecidableEq, Repr

structure ISNode where
  signatureID : Option String
  signatureName : Option String
  signatureNote : Option String
  byteSequences : List BSNode
deriving DecidableEq, Repr

structure ESNode where
  externalSignatureID : Option String
  signature : Option String
  signatureType : Option String
deriving DecidableEq, Repr

structure IdNode where
  identifier : Option String
  identifierType : Option String
deriving DecidableEq, Repr

structure RFNode where
  relationshipType : Option String
  relatedFormatID : Option String
  relatedFormatName : Option String
  relatedFormatVersion : Option String
deriving DecidableEq, Repr

structure Report where
  formatID : Option String
  formatName : Option String
  formatVersion : Option String
  formatTypes : Option String
  externalSignatures : List ESNode
  internalSignatures : List ISNode
  identifiers : List IdNode
  relatedFormats : List RFNode
deriving DecidableEq, Repr

/-- Position-type normalization inside `get_bytes` (source lines 433-438). -/
def mapPositionType : Option String → String
  | some ("Absolute from BOF") => "BOFoffset"
  | some ("Absolute from EOF") => "EOFoffset"
  | _ => ""

/-- One iteration of the `get_bytes` loop body (source lines 430-470).
Outer `none`: the uncaught `TypeError` from `re.fullmatch(..., None)` when
`ByteSequenceValue` is absent.  `some none`: the `continue` that drops the
sequence at the odd-length check.  `some (some bs)`: the appended record.
The `re.fullmatch` character-class check (`valid_sig`) only logs on failure
and does not alter the data flow, so it does not appear here. -/
def processBSNode (node : BSNode) : Option (Option ByteSequence) :=
  match node.byteSequenceValue with
  | none => none
  | some seq_value =>
    if !patternGate seq_value && seq_value.length % 2 != 0 then
      some none
    else
      some (some (ByteSequence.mk node.byteSequenceID
        (mapPositionType node.positionType) node.offset node.maxOffset
        node.endianness (finalize_value seq_value)))

/-- `get_bytes` (source lines 406-471): fold the loop body over the node
list, propagating the crash. -/
def get_bytes : List BSNode → Option (List ByteSequence)
  | [] => some []
  | node :: rest =>
    match processBSNode node with
    | none => none
    | some r =>
      match get_bytes rest with
      | none => none
      | some tail =>
        some (match r with
          | none => tail
          | some bs => bs :: tail)

/-- `get_internal` (source lines 362-403).  The source wraps the
`get_bytes` call in `try ... except IndexError: continue`, but that branch
is unreachable: `getElementsByTagName` does not raise, and the only failure
inside `get_bytes` is a `TypeError` (missing `ByteSequenceValue`), which
the `except IndexError` does not catch.  The embedding therefore appends an
`InternalSignature` for every node — including one whose byte-sequence list
comes back empty — and propagates the crash. -/
def get_internal : List ISNode → Option (List InternalSignature)
  | [] => some []
  | internal :: rest =>
    match get_bytes internal.byteSequences with
    | none => none
    | some sequences =>
      match get_internal rest with
      | none => none
      | some tail =>
        some (InternalSignature.mk internal.signatureID
          internal.signatureName sequences :: tail)

/-- `get_external` (source lines 333-359): every block is kept. -/
def get_external (externals : List ESNode) : List ExternalSignature :=
  externals.map fun e =>
    ExternalSignature.mk e.externalSignatureID e.signature e.signatureType

/-- `get_priorities` (source lines 301-330): keep only blocks whose
`RelationshipType` equals `"Has priority over"`. -/
def get_priorities : List RFNode → List Priority
  | [] => []
  | related :: rest =>
    if related.relationshipType ≠ some ("Has priority over") then
      get_priorities rest
    else
      Priority.mk related.relationshipType related.relatedFormatID ::
        get_priorities rest

/-- `get_identifiers` (source lines 272-298): last value seen wins for each
of MIME and PUID; the initial values are empty strings.  Result is
`(puid, mime)`. -/
def get_identifiers (identifiers : List IdNode) : Option String × Option String :=
  identifiers.foldl
    (fun acc identifier =>
      let mime := if identifier.identifierType = some ("MIME")
        then identifier.identifier else acc.2
      let puid := if identifier.identifierType = some ("PUID")
        then identifier.identifier else acc.1
      (puid, mime))
    (some (""), some (""))

/-- `escape(x)` where `x` can be `None`: `escape(None)` raises
`AttributeError`, modelled as `none`. -/
def pyEscapeOpt : Option String → Option String
  | none => none
  | some s => some (pyEscape s)

/-- The per-report body of the `process_pronom` loop (source lines
510-540).  `none`: a crash (missing `ByteSequenceValue` inside
`get_bytes`, or `escape(None)` on a missing `FormatName`/`FormatVersion`).
`some none`: the `continue` that skips a report with no external and no
internal signatures.  `some (some fmt)`: the appended `Format`. -/
def extract_format (r : Report) : Option (Option Format) :=
  let external_signatures := get_external r.externalSignatures
  match get_internal r.internalSignatures with
  | none => none
  | some internal_signatures =>
    let pm := get_identifiers r.identifiers
    if external_signatures.isEmpty && internal_signatures.isEmpty then
      some none
    else
      let priorities := get_priorities r.relatedFormats
      match pyEscapeOpt r.formatName, pyEscapeOpt r.formatVersion with
      | some nm, some vr =>
        some (some (Format.mk r.formatID nm vr pm.1 pm.2 r.formatTypes
          external_signatures internal_signatures priorities))
      | _, _ => none

/-- The format-collection phase of `process_pronom` (source lines 506-541):
extract every report in order, skipping the signature-less ones,
propagating any crash. -/
def process_pronom_formats : List Report → Option (List Format)
  | [] => some []
  | r :: rest =>
    match extract_format r with
    | none => none
    | some fr =>
      match process_pronom_formats rest with
      | none => none
      | some tail =>
        some (match fr with
          | none => tail
          | some fmt => fmt :: tail)

/-! ## Document assembly: `create_one_to_many_byte_sequence`,
`create_many_to_one_byte_sequence`, `create_file_format_collection`,
`process_formats_and_save` (source lines 142-155, 192-254, 474-503). -/

/-- Python `s.startswith(pat)`. -/
def pyStartsWith (s pat : String) : Bool :=
  pat.data.isPrefixOf s.data

/-- The `seq` value used for one item of `create_one_to_many_byte_sequence`
(source lines 196-200): the raw value, or the anchor-specific encoding. -/
def encodeSeq (item : ByteSequence) : Option String :=
  if pyStartsWith item.pos ("EOF") then calculate_variable_off_eof item
  else if pyStartsWith item.pos ("BOF") then calculate_variable_off_bof item
  else some item.value

/-- The `<ByteSequence .../>` tag text built by the f-string on source
line 203.  `MinOffset`/`MaxOffset` interpolate the possibly-`None` raw
strings. -/
def bsTag (item : ByteSequence) (seq : String) : String :=
  "<ByteSequence Reference=\"" ++ item.pos ++ "\" Sequence=\"" ++ seq ++
    "\" MinOffset=\"" ++ optStr item.min_off ++ "\" MaxOffset=\"" ++
    optStr item.max_off ++ "\"/>"

/-- Crash-propagating left fold (the Python `for` loop over a list where
the body may raise). -/
def optFoldl (f : σ → α → Option σ) : σ → List α → Option σ
  | s, [] => some s
  | s, a :: l =>
    match f s a with
    | none => none
    | some t => optFoldl f t l

/-- `create_one_to_many_byte_sequence` (source lines 192-205).  Each
iteration rebuilds the accumulator as
`"\n" + acc.strip() + "\n    " + tag + "\n        "` and the final result
is stripped. -/
def create_one_to_many_byte_sequence (byte_sequences : List ByteSequence) :
    Option String :=
  (optFoldl
    (fun acc item =>
      (encodeSeq item).map fun seq =>
        "\n" ++ pyStrip acc ++ "\n    " ++ bsTag item seq ++ "\n        ")
    ("") byte_sequences).map pyStrip

/-- `create_many_to_one_byte_sequence` (source lines 142-155).  Each
iteration rebuilds the accumulator as
`"\n" + acc + "<InternalSignature ...>\n    " + bs + "\n</InternalSignature>\n        "`
(the accumulator is *not* stripped inside this loop) and the final result
is stripped. -/
def create_many_to_one_byte_sequence (internal_signatures : List InternalSignature) :
    Option String :=
  (optFoldl
    (fun acc internal =>
      (create_one_to_many_byte_sequence internal.byte_sequences).map fun bs =>
        "\n" ++ acc ++ "<InternalSignature ID=\"" ++ optStr internal.id ++
          "\" Specificity=\"Specific\">\n    " ++ bs ++
          "\n</InternalSignature>\n        ")
    ("") internal_signatures).map pyStrip

/-- `create_file_format_collection` (source lines 208-254). -/
def create_file_format_collection (fmt : Format) : String :=
  let internal_sigs := fmt.internal_signatures.map fun sig =>
    "<InternalSignatureID>" ++ optStr sig.id ++ "</InternalSignatureID>"
  let external_sigs := (fmt.external_signatures.filter
      (fun sig => sig.type = some ("File extension"))).map fun sig =>
    "<Extension>" ++ optStr sig.signature ++ "</Extension>"
  let priorities := fmt.priorities.map fun priority =>
    "<HasPriorityOverFileFormatID>" ++ optStr priority.id ++
      "</HasPriorityOverFileFormatID>"
  pyStrip ("\n<FileFormat ID=\"" ++ optStr fmt.id ++ "\" Name=\"" ++ fmt.name ++
    "\" PUID=\"" ++ optStr fmt.puid ++ "\" Version=\"" ++ fmt.version ++
    "\" MIMEType=\"" ++ optStr fmt.mime ++ "\">\n    " ++
    pyStrip (String.join internal_sigs) ++ "\n    " ++
    pyStrip (String.join external_sigs) ++ "\n    " ++
    pyStrip (String.join priorities) ++ "\n</FileFormat>\n    ")

/-- One iteration of the collection-building loop of
`process_formats_and_save` (source lines 483-486): `ffc` (first component)
receives one entry per format, `isc` (second component) one entry per
format with a non-empty internal-signature list. -/
def formatStep (acc : List String × List String) (fmt : Format) :
    Option (List String × List String) :=
  let ffc := acc.1 ++ [create_file_format_collection fmt]
  if !fmt.internal_signatures.isEmpty then
    (create_many_to_one_byte_sequence fmt.internal_signatures).map
      fun s => (ffc, acc.2 ++ [s])
  else
    some (ffc, acc.2)

/-- The collection-building loop of `process_formats_and_save` (source
lines 481-486).  Result `(ffc, isc)`. -/
def process_formats_parts (formats : List Format) :
    Option (List String × List String) :=
  optFoldl formatStep (([], [])) formats

/-- The `droid_template` f-string of `process_formats_and_save` (source
lines 487-498) followed by `.strip().replace("\n", "")`; the timestamp is
a parameter (the source takes it from the clock).  The later
`xml.dom.minidom` re-parse and pretty-print is a deterministic function of
this string and is outside the embedding. -/
def renderTemplate (parts : List String × List String) (ts : String) : String :=
  pyReplace (pyStrip (
    "\n<?xml version=\"1.0\" encoding=\"UTF-8\"?>\n<FFSignatureFile xmlns=\x27http://www.nationalarchives.gov.uk/pronom/SignatureFile\x27 Version=\x271\x27 DateCreated=\x27" ++
    ts ++ "\x27>\n    <InternalSignatureCollection>\n        " ++
    pyStrip (String.join parts.2) ++
    "\n    </InternalSignatureCollection>\n    <FileFormatCollection>\n        " ++
    pyStrip (String.join parts.1) ++
    "\n    </FileFormatCollection>\n</FFSignatureFile>\n    ")) '\n' ("")

/-- The whole report-to-document pipeline (`process_pronom` followed by
`process_formats_and_save`), with the timestamp supplied as a parameter
and `none` modelling an uncaught exception. -/
def pipelineDoc (reports : List Report) (ts : String) : Option String :=
  match process_pronom_formats reports with
  | none => none
  | some formats =>
    match process_formats_parts formats with
    | none => none
    | some parts => some (renderTemplate parts ts)

example :
    get_bytes [BSNode.mk (some ("315")) (some ("Absolute from BOF"))
      (some ("12")) (some ("128")) (some ("Little-endian")) (some ("41fa"))]
    = some [ByteSequence.mk (some ("315")) "BOFoffset" (some ("12"))
      (some ("128")) (some ("Little-endian")) "41FA"] := by decide

example :
    get_bytes [BSNode.mk (some ("315")) (some ("Absolute from BOF"))
      (some ("12")) (some ("128")) none (some ("41F"))]
    = some [] := by decide

example :
    create_one_to_many_byte_sequence
      [ByteSequence.mk (some ("1")) "BOFoffset" (some ("")) (some ("")) none "04",
       ByteSequence.mk (some ("2")) "" none none none "AB"]
    = some ("<ByteSequence Reference=\"BOFoffset\" Sequence=\"04\" MinOffset=\"\" MaxOffset=\"\"/>\n    <ByteSequence Reference=\"\" Sequence=\"AB\" MinOffset=\"None\" MaxOffset=\"None\"/>") := by
  decide


/-! ## Helper combinators and specification-side definitions used by the
theorems below. -/

/-- Crash-propagating map over a list, left to right (the order in which
the Python loops visit their items). -/
def optMapM (f : α → Option β) : List α → Option (List β)
  | [] => some []
  | a :: l =>
    match f a with
    | none => none
    | some b =>
      match optMapM f l with
      | none => none
      | some bs => some (b :: bs)

/-- Join a list of strings with a separator (no leading or trailing
separator). -/
def sepJoin (sep : String) : List String → String
  | [] => ""
  | [x] => x
  | x :: y :: xs => x ++ sep ++ sepJoin sep (y :: xs)

/-- Plain concatenation of a list of strings. -/
def sconcat : List String → String
  | [] => ""
  | s :: l => s ++ sconcat l

/-- `n` newline characters. -/
def nlRep : Nat → String
  | 0 => ""
  | n + 1 => "\n" ++ nlRep n

/-- The rendered `<ByteSequence .../>` entry of one byte sequence, offset
encoding included (`none` when the encoding crashes). -/
def entryOf (item : ByteSequence) : Option String :=
  (encodeSeq item).map fun seq => bsTag item seq

/-- The rendered `<InternalSignature ...>...</InternalSignature>` block of
one internal signature, without the trailing whitespace the loop adds
(`none` when rendering its byte sequences crashes). -/
def blockOf (sig : InternalSignature) : Option String :=
  (create_one_to_many_byte_sequence sig.byte_sequences).map fun bs =>
    "<InternalSignature ID=\"" ++ optStr sig.id ++
      "\" Specificity=\"Specific\">\n    " ++ bs ++ "\n</InternalSignature>"

/-! Scrubbing functions for the non-interference claim: they erase the two
extracted-but-never-rendered fields (`Endianness` on byte sequences,
`FormatTypes` on formats), at the input level and at the record level. -/

def scrubBS (n : BSNode) : BSNode :=
  BSNode.mk n.byteSequenceID n.positionType n.offset n.maxOffset none
    n.byteSequenceValue

def scrubIS (n : ISNode) : ISNode :=
  ISNode.mk n.signatureID n.signatureName n.signatureNote
    (n.byteSequences.map scrubBS)

def scrubReport (r : Report) : Report :=
  Report.mk r.formatID r.formatName r.formatVersion none
    r.externalSignatures (r.internalSignatures.map scrubIS) r.identifiers
    r.relatedFormats

def scrubSeq (b : ByteSequence) : ByteSequence :=
  ByteSequence.mk b.id b.pos b.min_off b.max_off none b.value

def scrubSig (s : InternalSignature) : InternalSignature :=
  InternalSignature.mk s.id s.name (s.byte_sequences.map scrubSeq)

def scrubFmt (f : Format) : Format :=
  Format.mk f.id f.name f.version f.puid f.mime none f.external_signatures
    (f.internal_signatures.map scrubSig) f.priorities

/-- A string whose first character is `<` (every rendered tag). -/
def angleL (s : String) : Prop :=
  ∃ t, s.data = '<' :: t

/-- A string whose last character is `>` (every rendered tag). -/
def angleR (s : String) : Prop :=
  ∃ t, s.data = t ++ ['>']

/-- The raw accumulator of the `create_many_to_one_byte_sequence` loop when
the per-item block strings are already rendered: each iteration is
`acc ↦ "\n" + acc + block`. -/
def foldRaw : String → List String → String
  | acc, [] => acc
  | acc, b :: bl => foldRaw ("\n" ++ acc ++ b) bl

/-! ## Sanity checks of the embedding on concrete inputs -/

example : calculate_variable_off_bof
    (ByteSequence.mk none "BOFoffset" (some ("10")) (some ("5")) none "AB")
    = some ("\x7b10-15\x7dAB") := by decide

example : calculate_variable_off_eof
    (ByteSequence.mk none "EOFoffset" (some ("")) (some ("20")) none "AB")
    = some ("AB\x7b0-20\x7d") := by decide

/- A genuinely absent (`None`) min offset with a present positive max is a
crash in the source (`int(None)` raises `TypeError`): "absent" in the
no-crash branches means the empty string. -/
example : calculate_variable_off_eof
    (ByteSequence.mk none "EOFoffset" none (some ("20")) none "AB")
    = none := by decide

example : calculate_variable_off_bof
    (ByteSequence.mk none "BOFoffset" (some ("3")) (some ("")) none "AB")
    = some ("\x7b3\x7dAB") := by decide

example : calculate_variable_off_bof
    (ByteSequence.mk none "BOFoffset" (some ("0")) (some ("")) none "AB")
    = some "AB" := by decide

/-! ## Claim theorems -/

/-- C1 counterexample: the claim's else-branches also cover a genuinely
absent bound, but the source crashes there instead of encoding.  With the
min bound absent (`None`) and max present and positive, the claim says the
EOF-anchored value gets the suffix `{0-20}` (and the BOF-anchored value
the prefix `{0-20}`); the source evaluates `item.min_off != ""` — true for
`None` — and then `int(None)` raises `TypeError`, so neither function
returns a value at all. -/
theorem c1_counterexample_absent_min_crashes :
    (ByteSequence.mk none "EOFoffset" none (some ("20")) none "AB").min_off
      = none ∧
    calculate_variable_off_eof
      (ByteSequence.mk none "EOFoffset" none (some ("20")) none "AB")
      ≠ some ("AB\x7b0-20\x7d") ∧
    calculate_variable_off_eof
      (ByteSequence.mk none "EOFoffset" none (some ("20")) none "AB")
      = none ∧
    calculate_variable_off_bof
      (ByteSequence.mk none "BOFoffset" none (some ("20")) none "AB")
      = none := by
  refine ⟨by decide, by decide, by decide, by decide⟩

/-- C1 amended: offset encoding is a pure function of the anchor and the
min/max bounds, where a bound counts as "not present" only when it is the
*empty string*.  For a BOF-anchored sequence: if both bounds are non-empty
with positive integer values the value is prefixed with `{min}-{min+max}`;
else if only max is non-empty and positive the prefix is `{0-max}`; else
if only min is non-empty and positive the prefix is `{min}`; else (each
bound empty or non-positive) the value is emitted with no prefix.  For an
EOF-anchored sequence the same quantifier is appended as a suffix instead.
A genuinely absent (`None`) min bound is not "not present": it crashes the
encoder (`int(None)` raises `TypeError`) and nothing is emitted.
"Present and positive" is the source's evaluated condition
`x != "" and int(x) > 0` (`posBound x = some true`). -/
theorem c1_offset_encoding_pure (item : ByteSequence) :
    (∀ m mx : Int,
      posBound item.min_off = some true → pyInt item.min_off = some m →
      posBound item.max_off = some true → pyInt item.max_off = some mx →
      calculate_variable_off_bof item =
        some ("\x7b" ++ optStr item.min_off ++ "-" ++ toString (m + mx) ++ "\x7d"
          ++ item.value) ∧
      calculate_variable_off_eof item =
        some (item.value ++
          ("\x7b" ++ optStr item.min_off ++ "-" ++ toString (m + mx) ++ "\x7d"))) ∧
    (posBound item.min_off = some false → posBound item.max_off = some true →
      calculate_variable_off_bof item =
        some ("\x7b0-" ++ optStr item.max_off ++ "\x7d" ++ item.value) ∧
      calculate_variable_off_eof item =
        some (item.value ++ ("\x7b0-" ++ optStr item.max_off ++ "\x7d"))) ∧
    (posBound item.min_off = some true → posBound item.max_off = some false →
      calculate_variable_off_bof item =
        some ("\x7b" ++ optStr item.min_off ++ "\x7d" ++ item.value) ∧
      calculate_variable_off_eof item =
        some (item.value ++ ("\x7b" ++ optStr item.min_off ++ "\x7d"))) ∧
    (posBound item.min_off = some false → posBound item.max_off = some false →
      calculate_variable_off_bof item = some item.value ∧
      calculate_variable_off_eof item = some item.value) ∧
    (item.min_off = none →
      calculate_variable_off_bof item = none ∧
      calculate_variable_off_eof item = none) := by
  refine ⟨fun m mx h1 h2 h3 h4 => ?_, fun h1 h3 => ?_, fun h1 h3 => ?_,
    fun h1 h3 => ?_, fun h1 => ?_⟩
  · simp [calculate_variable_off_bof, calculate_variable_off_eof,
      offQuantifier, h1, h2, h3, h4]
  · simp [calculate_variable_off_bof, calculate_variable_off_eof,
      offQuantifier, h1, h3]
  · simp [calculate_variable_off_bof, calculate_variable_off_eof,
      offQuantifier, h1, h3]
  · simp [calculate_variable_off_bof, calculate_variable_off_eof,
      offQuantifier, h1, h3]
  · simp [calculate_variable_off_bof, calculate_variable_off_eof,
      offQuantifier, posBound, pyNeEmpty, pyInt, h1]

/-- C1 witness: the spec's own examples — `min=10, max=5` gives prefix
`{10-15}`, EOF with empty min and `max=20` gives suffix `{0-20}` — and the
crash clause at an absent min bound. -/
theorem c1_offset_encoding_pure_witness :
    calculate_variable_off_bof
      (ByteSequence.mk none "BOFoffset" (some ("10")) (some ("5")) none "AB")
      = some ("\x7b10-15\x7dAB") ∧
    calculate_variable_off_eof
      (ByteSequence.mk none "EOFoffset" (some ("")) (some ("20")) none "AB")
      = some ("AB\x7b0-20\x7d") ∧
    calculate_variable_off_eof
      (ByteSequence.mk none "EOFoffset" none (some ("7")) none "CD")
      = none := by
  refine ⟨?_, ?_, ?_⟩
  · have h := ((c1_offset_encoding_pure
      (ByteSequence.mk none "BOFoffset" (some ("10")) (some ("5")) none "AB")).1
      10 5 (by decide) (by decide) (by decide) (by decide)).1
    rw [h]; decide
  · have h := ((c1_offset_encoding_pure
      (ByteSequence.mk none "EOFoffset" (some ("")) (some ("20")) none "AB")).2.1
      (by decide) (by decide)).2
    rw [h]; decide
  · exact ((c1_offset_encoding_pure
      (ByteSequence.mk none "EOFoffset" none (some ("7")) none "CD")).2.2.2.2
      rfl).2

/-! ### Shared helper lemmas -/

/-- `get_bytes` processes a concatenation independently, in order. -/
theorem get_bytes_append (l1 l2 : List BSNode) :
    get_bytes (l1 ++ l2) =
      (get_bytes l1).bind fun a => (get_bytes l2).map fun b => a ++ b := by
  induction l1 with
  | nil => cases h : get_bytes l2 <;> simp [get_bytes, h, Option.bind]
  | cons n rest ih =>
    cases hn : processBSNode n with
    | none => simp [get_bytes, hn, Option.bind]
    | some r =>
      cases hr : get_bytes rest with
      | none =>
        have hx : get_bytes (rest ++ l2) = none := by
          rw [ih, hr]; rfl
        simp [get_bytes, hn, hr, hx, Option.bind]
      | some tail =>
        cases h2 : get_bytes l2 with
        | none =>
          have hx : get_bytes (rest ++ l2) = none := by
            rw [ih, hr]; simp [h2]
          simp [get_bytes, hn, hr, h2, hx, Option.bind]
        | some b =>
          have hx : get_bytes (rest ++ l2) = some (tail ++ b) := by
            rw [ih, hr]; simp [h2]
          cases r <;> simp [get_bytes, hn, hr, h2, hx, Option.bind]

/-- `get_internal` processes a concatenation independently, in order. -/
theorem get_internal_append (l1 l2 : List ISNode) :
    get_internal (l1 ++ l2) =
      (get_internal l1).bind fun a => (get_internal l2).map fun b => a ++ b := by
  induction l1 with
  | nil => cases h : get_internal l2 <;> simp [get_internal, h, Option.bind]
  | cons n rest ih =>
    cases hn : get_bytes n.byteSequences with
    | none => simp [get_internal, hn, Option.bind]
    | some r =>
      cases hr : get_internal rest with
      | none =>
        have hx : get_internal (rest ++ l2) = none := by
          rw [ih, hr]; rfl
        simp [get_internal, hn, hr, hx, Option.bind]
      | some tail =>
        cases h2 : get_internal l2 with
        | none =>
          have hx : get_internal (rest ++ l2) = none := by
            rw [ih, hr]; simp [h2]
          simp [get_internal, hn, hr, h2, hx, Option.bind]
        | some b =>
          have hx : get_internal (rest ++ l2) = some (tail ++ b) := by
            rw [ih, hr]; simp [h2]
          simp [get_internal, hn, hr, h2, hx, Option.bind]

/-- The odd-length gate of `get_bytes` does not fire when a gate substring
is present or the length is even. -/
theorem gate_pass {v : String}
    (hgate : patternGate v = true ∨ v.length % 2 = 0) :
    (!patternGate v && v.length % 2 != 0) = false := by
  rcases hgate with h | h <;> simp [h]

/-- An accepted node contributes its `ByteSequence` record. -/
theorem processBSNode_accepted (node : BSNode) (v : String)
    (hv : node.byteSequenceValue = some v)
    (hgate : patternGate v = true ∨ v.length % 2 = 0) :
    processBSNode node = some (some (ByteSequence.mk node.byteSequenceID
      (mapPositionType node.positionType) node.offset node.maxOffset
      node.endianness (finalize_value v))) := by
  simp only [processBSNode, hv]
  rw [gate_pass hgate]
  simp

/-- A single surviving node in the middle of a node list yields exactly its
record, in place, with the neighbours processed unchanged. -/
theorem get_bytes_middle (pre post : List BSNode) (node : BSNode)
    (v : String) (hv : node.byteSequenceValue = some v)
    (hgate : patternGate v = true ∨ v.length % 2 = 0) :
    get_bytes (pre ++ node :: post) =
      (get_bytes pre).bind fun a => (get_bytes post).map fun b =>
        a ++ (ByteSequence.mk node.byteSequenceID
          (mapPositionType node.positionType) node.offset node.maxOffset
          node.endianness (finalize_value v) :: b) := by
  rw [get_bytes_append]
  have hn := processBSNode_accepted node v hv hgate
  cases hpre : get_bytes pre with
  | none => simp [Option.bind]
  | some a =>
    cases hpost : get_bytes post with
    | none => simp [get_bytes, hn, hpost, Option.bind]
    | some b => simp [get_bytes, hn, hpost, Option.bind]

/-- C3: failing the allowed-character-set check (`valid_sig`, the
`re.fullmatch` against `PRONOM_REGEX_ALLOWED`) is logged but does not by
itself reject a byte sequence: a value with a disallowed character that
passes the length gate is still accepted and emitted into the output, in
place, with its neighbours unaffected.  (The `hbad` hypothesis is not even
needed by the proof: acceptance is independent of `valid_sig`.) -/
theorem c3_charset_check_never_rejects (pre post : List BSNode)
    (node : BSNode) (v : String)
    (hv : node.byteSequenceValue = some v)
    (_hbad : valid_sig v = false)
    (hgate : patternGate v = true ∨ v.length % 2 = 0) :
    get_bytes (pre ++ node :: post) =
      (get_bytes pre).bind fun a => (get_bytes post).map fun b =>
        a ++ (ByteSequence.mk node.byteSequenceID
          (mapPositionType node.positionType) node.offset node.maxOffset
          node.endianness (finalize_value v) :: b) :=
  get_bytes_middle pre post node v hv hgate

/-- C3 witness: `"4Z"` fails the character-set check (`Z` is not allowed),
has even length, and is emitted unchanged. -/
theorem c3_charset_check_never_rejects_witness :
    valid_sig ("4Z") = false ∧
    get_bytes [BSNode.mk (some ("7")) (some ("Absolute from BOF")) none none
      none (some ("4Z"))] =
      some [ByteSequence.mk (some ("7")) "BOFoffset" none none none "4Z"] := by
  constructor
  · decide
  · have h := c3_charset_check_never_rejects [] []
      (BSNode.mk (some ("7")) (some ("Absolute from BOF")) none none none
        (some ("4Z"))) ("4Z") rfl (by decide) (Or.inr (by decide))
    simp only [List.nil_append] at h
    rw [h]; decide

/-- C4 counterexample: the claim says a value containing at least one
pattern-control character (its list includes `?`) is never rejected for
odd length; but the source's gate tests the substring `"??"`, not a single
`?`, so the odd-length pure-hex-plus-`?` value `"4?1"` is rejected. -/
theorem c4_counterexample_single_question_mark :
    ('?' ∈ "4?1".data) ∧ "4?1".length % 2 = 1 ∧
    get_bytes [BSNode.mk (some ("9")) (some ("Absolute from BOF")) none none
      none (some ("4?1"))] = some [] := by
  refine ⟨by decide, by decide, by decide⟩

/-- C4 amended: a byte-sequence value is rejected by the length check
exactly when it contains none of the gate substrings
`?? ( ) | { } : - [ ] *` (single `?`, `!` and `&` do not count) and its
length is odd; an accepted value with no ampersand after normalization is
emitted trimmed, uppercased and with internal spaces removed. -/
theorem c4_amended_length_check (node : BSNode) (v : String)
    (hv : node.byteSequenceValue = some v) :
    (get_bytes [node] = some [] ↔
      (patternGate v = false ∧ v.length % 2 = 1)) ∧
    (patternGate v = false → v.length % 2 = 0 →
      substrB ("&") (pre_process_signature v) = false →
      get_bytes [node] = some [ByteSequence.mk node.byteSequenceID
        (mapPositionType node.positionType) node.offset node.maxOffset
        node.endianness (pre_process_signature v)]) := by
  constructor
  · constructor
    · intro h
      by_cases hp : patternGate v = true
      · have := processBSNode_accepted node v hv (Or.inl hp)
        simp [get_bytes, this] at h
      · have hp' : patternGate v = false := by
          cases hq : patternGate v
          · rfl
          · exact absurd hq hp
        by_cases hl : v.length % 2 = 0
        · have := processBSNode_accepted node v hv (Or.inr hl)
          simp [get_bytes, this] at h
        · exact ⟨hp', Nat.mod_two_eq_zero_or_one v.length |>.resolve_left hl⟩
    · intro ⟨hp, hl⟩
      simp [get_bytes, processBSNode, hv, hp, hl]
  · intro hp hl hamp
    have := processBSNode_accepted node v hv (Or.inr hl)
    simp [get_bytes, this, finalize_value, hamp]

/-- C4 witness: the spec's examples `"41F"` (odd pure hex, rejected) and
`"41FA"` (accepted, emitted as `"41FA"`). -/
theorem c4_amended_length_check_witness :
    get_bytes [BSNode.mk (some ("1")) (some ("Absolute from BOF")) none none
      none (some ("41F"))] = some [] ∧
    get_bytes [BSNode.mk (some ("2")) (some ("Absolute from BOF")) none none
      none (some ("41FA"))] =
      some [ByteSequence.mk (some ("2")) "BOFoffset" none none none "41FA"] := by
  constructor
  · exact ((c4_amended_length_check
      (BSNode.mk (some ("1")) (some ("Absolute from BOF")) none none none
        (some ("41F"))) ("41F") rfl).1).2 ⟨by decide, by decide⟩
  · have h := ((c4_amended_length_check
      (BSNode.mk (some ("2")) (some ("Absolute from BOF")) none none none
        (some ("41FA"))) ("41FA") rfl).2) (by decide) (by decide) (by decide)
    rw [h]; decide

/-- C5 counterexample: a report byte-sequence block with `ByteSequenceValue`
absent does not yield "a record with that field empty" — it crashes
extraction (`re.fullmatch(PRONOM_REGEX_ALLOWED, None)` raises an uncaught
`TypeError`), modelled as `none`. -/
theorem c5_counterexample_missing_value_crashes :
    get_bytes [BSNode.mk (some ("1")) (some ("Absolute from BOF"))
      (some ("0")) (some ("0")) none none] = none := by decide

/-- C5 amended: a missing label yields an absent value and the record
survives for the fields that are only stored (`ByteSequenceID`,
`PositionType`, `Offset`, `MaxOffset`, `Endianness`); but a missing
`ByteSequenceValue` crashes byte-sequence extraction, and a missing
`FormatName` crashes format assembly for any format that still has a
signature. -/
theorem c5_amended_missing_fields (v : String)
    (hgate : patternGate v = true ∨ v.length % 2 = 0) :
    get_bytes [BSNode.mk none none none none none (some v)] =
      some [ByteSequence.mk none "" none none none (finalize_value v)] ∧
    (∀ node : BSNode, node.byteSequenceValue = none →
      get_bytes [node] = none) ∧
    (∀ (r : Report) (isigs : List InternalSignature),
      r.formatName = none →
      get_internal r.internalSignatures = some isigs →
      (get_external r.externalSignatures).isEmpty = false →
      extract_format r = none) := by
  refine ⟨?_, ?_, ?_⟩
  · have := processBSNode_accepted (BSNode.mk none none none none none
      (some v)) v rfl hgate
    simp [get_bytes, this, mapPositionType]
  · intro node hn
    simp [get_bytes, processBSNode, hn]
  · intro r isigs hname hint hext
    simp [extract_format, hint, hext, pyEscapeOpt, hname]

/-- C5 witness: concrete instances of all three parts. -/
theorem c5_amended_missing_fields_witness :
    get_bytes [BSNode.mk none none none none none (some ("41FA"))] =
      some [ByteSequence.mk none "" none none none "41FA"] ∧
    get_bytes [BSNode.mk (some ("3")) none none none none none] = none ∧
    extract_format (Report.mk (some ("1")) none (some ("1.0")) none
      [ESNode.mk (some ("8")) (some ("ttf")) (some ("File extension"))]
      [] [] []) = none := by
  have h := c5_amended_missing_fields ("41FA") (Or.inr (by decide))
  refine ⟨?_, ?_, ?_⟩
  · rw [h.1]; decide
  · exact h.2.1 (BSNode.mk (some ("3")) none none none none none) rfl
  · exact h.2.2 (Report.mk (some ("1")) none (some ("1.0")) none
      [ESNode.mk (some ("8")) (some ("ttf")) (some ("File extension"))]
      [] [] []) [] rfl (by decide) (by decide)

/-- C9: a byte-sequence value whose normalized form contains an ampersand
is escaped for markup embedding and still accepted into the output — the
ampersand never causes the sequence to be dropped or the run to fail. -/
theorem c9_ampersand_escaped_kept (pre post : List BSNode) (node : BSNode)
    (v : String)
    (hv : node.byteSequenceValue = some v)
    (hgate : patternGate v = true ∨ v.length % 2 = 0)
    (hamp : substrB ("&") (pre_process_signature v) = true) :
    get_bytes (pre ++ node :: post) =
      (get_bytes pre).bind fun a => (get_bytes post).map fun b =>
        a ++ (ByteSequence.mk node.byteSequenceID
          (mapPositionType node.positionType) node.offset node.maxOffset
          node.endianness (pyEscape (pre_process_signature v)) :: b) := by
  have h := get_bytes_middle pre post node v hv hgate
  rw [h]
  have hfv : finalize_value v = pyEscape (pre_process_signature v) := by
    simp [finalize_value, hamp]
  rw [hfv]

/-- C9 witness: `"4&41"` (even length, no gate substring) is accepted and
emitted escaped as `"4&amp;41"`. -/
theorem c9_ampersand_escaped_kept_witness :
    get_bytes [BSNode.mk (some ("5")) (some ("Absolute from EOF")) none none
      none (some ("4&41"))] =
      some [ByteSequence.mk (some ("5")) "EOFoffset" none none none
        "4&amp;41"] := by
  have h := c9_ampersand_escaped_kept [] []
    (BSNode.mk (some ("5")) (some ("Absolute from EOF")) none none none
      (some ("4&41"))) ("4&41") rfl (Or.inr (by decide)) (by decide)
  simp only [List.nil_append] at h
  rw [h]; decide

/-- C2 counterexample: an internal-signature block whose only byte-sequence
sub-block is invalid (odd-length pure hex `"41F"`) yields zero valid byte
sequences, yet the block is *not* dropped: `get_internal` still produces an
`InternalSignature` entry (with an empty byte-sequence list).  The
`except IndexError` in the source never fires. -/
theorem c2_counterexample_empty_block_kept :
    get_bytes [BSNode.mk (some ("1")) (some ("Absolute from BOF")) none none
      none (some ("41F"))] = some [] ∧
    get_internal [ISNode.mk (some ("242")) (some ("TrueType Font")) none
      [BSNode.mk (some ("1")) (some ("Absolute from BOF")) none none none
        (some ("41F"))]] =
      some [InternalSignature.mk (some ("242")) (some ("TrueType Font")) []] := by
  refine ⟨by decide, by decide⟩

/-- C2 amended: an internal-signature block whose byte-sequence sub-blocks
yield zero valid byte sequences is retained, producing an
`InternalSignature` entry with an empty byte-sequence list; sibling
internal-signature blocks are processed unaffected, in order. -/
theorem c2_amended_empty_block_kept (pre post : List ISNode) (node : ISNode)
    (h : get_bytes node.byteSequences = some []) :
    get_internal (pre ++ node :: post) =
      (get_internal pre).bind fun a => (get_internal post).map fun b =>
        a ++ (InternalSignature.mk node.signatureID node.signatureName []
          :: b) := by
  rw [get_internal_append]
  cases hpre : get_internal pre with
  | none => simp [Option.bind]
  | some a =>
    cases hpost : get_internal post with
    | none => simp [get_internal, h, hpost, Option.bind]
    | some b => simp [get_internal, h, hpost, Option.bind]

/-- C2 witness: the empty block of the counterexample between two healthy
sibling blocks survives with its siblings intact. -/
theorem c2_amended_empty_block_kept_witness :
    get_internal
      [ISNode.mk (some ("1")) none none
        [BSNode.mk (some ("10")) (some ("Absolute from BOF")) none none none
          (some ("AB"))],
       ISNode.mk (some ("242")) (some ("TrueType Font")) none
        [BSNode.mk (some ("1")) (some ("Absolute from BOF")) none none none
          (some ("41F"))],
       ISNode.mk (some ("2")) none none
        [BSNode.mk (some ("11")) (some ("Absolute from EOF")) none none none
          (some ("CD"))]] =
      some [InternalSignature.mk (some ("1")) none
          [ByteSequence.mk (some ("10")) "BOFoffset" none none none "AB"],
        InternalSignature.mk (some ("242")) (some ("TrueType Font")) [],
        InternalSignature.mk (some ("2")) none
          [ByteSequence.mk (some ("11")) "EOFoffset" none none none "CD"]] := by
  have h := c2_amended_empty_block_kept
    [ISNode.mk (some ("1")) none none
      [BSNode.mk (some ("10")) (some ("Absolute from BOF")) none none none
        (some ("AB"))]]
    [ISNode.mk (some ("2")) none none
      [BSNode.mk (some ("11")) (some ("Absolute from EOF")) none none none
        (some ("CD"))]]
    (ISNode.mk (some ("242")) (some ("TrueType Font")) none
      [BSNode.mk (some ("1")) (some ("Absolute from BOF")) none none none
        (some ("41F"))])
    (by decide)
  rw [show ([ISNode.mk (some ("1")) none none
      [BSNode.mk (some ("10")) (some ("Absolute from BOF")) none none none
        (some ("AB"))]] ++
      ISNode.mk (some ("242")) (some ("TrueType Font")) none
        [BSNode.mk (some ("1")) (some ("Absolute from BOF")) none none none
          (some ("41F"))] ::
      [ISNode.mk (some ("2")) none none
        [BSNode.mk (some ("11")) (some ("Absolute from EOF")) none none none
          (some ("CD"))]]) =
      [ISNode.mk (some ("1")) none none
        [BSNode.mk (some ("10")) (some ("Absolute from BOF")) none none none
          (some ("AB"))],
       ISNode.mk (some ("242")) (some ("TrueType Font")) none
        [BSNode.mk (some ("1")) (some ("Absolute from BOF")) none none none
          (some ("41F"))],
       ISNode.mk (some ("2")) none none
        [BSNode.mk (some ("11")) (some ("Absolute from EOF")) none none none
          (some ("CD"))]] from rfl] at h
  rw [h]; decide

/-- C7: a `RelatedFormat` block is retained as a priority exactly when its
relationship label equals `"Has priority over"`; every retained priority
carries that label (and hence only such blocks can ever be rendered as
`HasPriorityOverFileFormatID` references, which are generated from
`fmt.priorities` alone). -/
theorem c7_priorities_only_priority_over (relationships : List RFNode) :
    get_priorities relationships =
      (relationships.filter
        (fun n => n.relationshipType = some ("Has priority over"))).map
        (fun n => Priority.mk n.relationshipType n.relatedFormatID) ∧
    ∀ p ∈ get_priorities relationships,
      p.type = some ("Has priority over") := by
  constructor
  · induction relationships with
    | nil => rfl
    | cons n rest ih =>
      by_cases h : n.relationshipType = some ("Has priority over")
      · simp [get_priorities, h, List.filter, ih]
      · simp [get_priorities, h, List.filter, ih]
  · induction relationships with
    | nil => intro p hp; simp [get_priorities] at hp
    | cons n rest ih =>
      intro p hp
      by_cases h : n.relationshipType = some ("Has priority over")
      · simp [get_priorities, h] at hp
        rcases hp with hp | hp
        · rw [hp]
        · exact ih p hp
      · simp [get_priorities, h] at hp
        exact ih p hp

/-- C7 witness: the inverse label `"Has lower priority than"` is discarded,
`"Has priority over"` is kept with its id. -/
theorem c7_priorities_only_priority_over_witness :
    get_priorities
      [RFNode.mk (some ("Has lower priority than")) (some ("613")) none none,
       RFNode.mk (some ("Has priority over")) (some ("86")) none none] =
      [Priority.mk (some ("Has priority over")) (some ("86"))] ∧
    (Priority.mk (some ("Has priority over")) (some ("86"))).type =
      some ("Has priority over") := by
  have h := c7_priorities_only_priority_over
    [RFNode.mk (some ("Has lower priority than")) (some ("613")) none none,
     RFNode.mk (some ("Has priority over")) (some ("86")) none none]
  constructor
  · rw [h.1]; decide
  · exact h.2 (Priority.mk (some ("Has priority over")) (some ("86")))
      (by rw [h.1]; decide)

/-- A `Format` actually produced by `extract_format` has at least one
external or internal signature. -/
theorem extract_format_nonempty (r : Report) (f : Format)
    (h : extract_format r = some (some f)) :
    ¬(f.external_signatures = [] ∧ f.internal_signatures = []) := by
  cases hint : get_internal r.internalSignatures with
  | none => simp [extract_format, hint] at h
  | some isigs =>
    simp only [extract_format, hint] at h
    by_cases hc :
        ((get_external r.externalSignatures).isEmpty && isigs.isEmpty) = true
    · rw [if_pos hc] at h
      exact absurd h (by simp)
    · rw [if_neg hc] at h
      cases hn : pyEscapeOpt r.formatName with
      | none => rw [hn] at h; exact absurd h (by simp)
      | some nm =>
        cases hv2 : pyEscapeOpt r.formatVersion with
        | none => rw [hn, hv2] at h; exact absurd h (by simp)
        | some vr =>
          rw [hn, hv2] at h
          simp only [Option.some.injEq] at h
          rintro ⟨he, hi⟩
          apply hc
          rw [← h] at he hi
          simp only at he hi
          simp [he, hi]

/-- Every format in the result of `process_pronom_formats` was produced by
`extract_format`, hence the membership consequences below. -/
theorem process_pronom_formats_nonempty (rs : List Report) :
    ∀ fmts : List Format, process_pronom_formats rs = some fmts →
      ∀ f ∈ fmts,
        ¬(f.external_signatures = [] ∧ f.internal_signatures = []) := by
  induction rs with
  | nil =>
    intro fmts h f hf
    simp only [process_pronom_formats, Option.some.injEq] at h
    rw [← h] at hf
    simp at hf
  | cons r rest ih =>
    intro fmts h f hf
    simp only [process_pronom_formats] at h
    cases hr : extract_format r with
    | none => rw [hr] at h; exact absurd h (by simp)
    | some fr =>
      rw [hr] at h
      cases ht : process_pronom_formats rest with
      | none => rw [ht] at h; exact absurd h (by simp)
      | some tail =>
        rw [ht] at h
        cases fr with
        | none =>
          simp only [Option.some.injEq] at h
          rw [← h] at hf
          exact ih tail ht f hf
        | some fmt =>
          simp only [Option.some.injEq] at h
          rw [← h] at hf
          rcases List.mem_cons.mp hf with hf | hf
          · rw [hf]; exact extract_format_nonempty r fmt hr
          · exact ih tail ht f hf

/-- Closed form of the collection-building fold: the `ffc` list is the
in-order map of `create_file_format_collection`, the `isc` list is the
in-order rendering of the formats with internal signatures. -/
theorem formats_parts_go (fmts : List Format) :
    ∀ acc : List String × List String,
      optFoldl formatStep acc fmts =
        (optMapM (fun f => create_many_to_one_byte_sequence
            f.internal_signatures)
          (fmts.filter (fun f => !f.internal_signatures.isEmpty))).map
          (fun iscs =>
            (acc.1 ++ fmts.map create_file_format_collection,
             acc.2 ++ iscs)) := by
  induction fmts with
  | nil => intro acc; simp [optFoldl, optMapM]
  | cons fmt rest ih =>
    intro acc
    by_cases hi : fmt.internal_signatures.isEmpty
    · have hstep : formatStep acc fmt =
          some (acc.1 ++ [create_file_format_collection fmt], acc.2) := by
        simp [formatStep, hi]
      simp only [optFoldl, hstep, List.filter]
      rw [ih]
      cases hm : optMapM (fun f => create_many_to_one_byte_sequence
          f.internal_signatures)
          (rest.filter (fun f => !f.internal_signatures.isEmpty)) with
      | none => simp [hi, hm]
      | some iscs => simp [hi, hm]
    · have hib : (!fmt.internal_signatures.isEmpty) = true := by
        simp [hi]
      cases hcm : create_many_to_one_byte_sequence
          fmt.internal_signatures with
      | none =>
        have hstep : formatStep acc fmt = none := by
          simp [formatStep, hib, hcm]
        simp only [optFoldl, hstep, List.filter, hib]
        simp [optMapM, hcm]
      | some s =>
        have hstep : formatStep acc fmt =
            some (acc.1 ++ [create_file_format_collection fmt],
              acc.2 ++ [s]) := by
          simp [formatStep, hib, hcm]
        simp only [optFoldl, hstep, List.filter, hib]
        rw [ih]
        cases hm : optMapM (fun f => create_many_to_one_byte_sequence
            f.internal_signatures)
            (rest.filter (fun f => !f.internal_signatures.isEmpty)) with
        | none => simp [optMapM, hcm, hm, hib]
        | some iscs => simp [optMapM, hcm, hm, hib]

/-- C6: a format record with zero internal and zero external signatures is
dropped before assembly (the extraction loop skips it), and every format
that survives has at least one signature and yields exactly one
file-format entry (the `ffc` list is the one-to-one in-order image of the
formats). -/
theorem c6_signatureless_formats_dropped :
    (∀ r : Report, get_external r.externalSignatures = [] →
      get_internal r.internalSignatures = some [] →
      extract_format r = some none) ∧
    (∀ (rs : List Report) (fmts : List Format),
      process_pronom_formats rs = some fmts →
      (∀ f ∈ fmts,
        ¬(f.external_signatures = [] ∧ f.internal_signatures = [])) ∧
      ∀ parts, process_formats_parts fmts = some parts →
        parts.1 = fmts.map create_file_format_collection) := by
  constructor
  · intro r hext hint
    simp [extract_format, hint, hext]
  · intro rs fmts h
    refine ⟨process_pronom_formats_nonempty rs fmts h, ?_⟩
    intro parts hp
    rw [process_formats_parts, formats_parts_go] at hp
    cases hm : optMapM (fun f => create_many_to_one_byte_sequence
        f.internal_signatures)
        (fmts.filter (fun f => !f.internal_signatures.isEmpty)) with
    | none => rw [hm] at hp; exact absurd hp (by simp)
    | some iscs =>
      rw [hm] at hp
      simp at hp
      rw [← hp]

/-- C6 witness: a signature-less report is skipped; a one-format run yields
exactly one file-format entry. -/
theorem c6_signatureless_formats_dropped_witness :
    extract_format (Report.mk (some ("99")) (some ("Empty")) (some ("1"))
      none [] [] [] []) = some none ∧
    process_pronom_formats [Report.mk (some ("1")) (some ("F")) (some ("1"))
      none [ESNode.mk (some ("8")) (some ("ttf")) (some ("File extension"))]
      [] [] []] =
      some [Format.mk (some ("1")) "F" "1" (some ("")) (some ("")) none
        [ExternalSignature.mk (some ("8")) (some ("ttf"))
          (some ("File extension"))] [] []] ∧
    ∀ parts, process_formats_parts [Format.mk (some ("1")) "F" "1"
        (some ("")) (some ("")) none
        [ExternalSignature.mk (some ("8")) (some ("ttf"))
          (some ("File extension"))] [] []] = some parts →
      parts.1 = [create_file_format_collection (Format.mk (some ("1")) "F"
        "1" (some ("")) (some ("")) none
        [ExternalSignature.mk (some ("8")) (some ("ttf"))
          (some ("File extension"))] [] [])] := by
  refine ⟨c6_signatureless_formats_dropped.1 (Report.mk (some ("99"))
    (some ("Empty")) (some ("1")) none [] [] [] []) (by decide) (by decide),
    by decide, ?_⟩
  intro parts hp
  have h := (c6_signatureless_formats_dropped.2
    [Report.mk (some ("1")) (some ("F")) (some ("1")) none
      [ESNode.mk (some ("8")) (some ("ttf")) (some ("File extension"))]
      [] [] []]
    [Format.mk (some ("1")) "F" "1" (some ("")) (some ("")) none
      [ExternalSignature.mk (some ("8")) (some ("ttf"))
        (some ("File extension"))] [] []] (by decide)).2 parts hp
  simpa using h

/-! ### String lemmas for the order-preservation claim -/

theorem angleL_append (a b : String) (h : angleL a) : angleL (a ++ b) := by
  obtain ⟨t, ht⟩ := h
  exact ⟨t ++ b.data, by rw [String.data_append, ht]; rfl⟩

theorem angleR_append (a b : String) (h : angleR b) : angleR (a ++ b) := by
  obtain ⟨t, ht⟩ := h
  exact ⟨a.data ++ t, by rw [String.data_append, ht, List.append_assoc]⟩

theorem angleL_ne_empty {s : String} (h : angleL s) : ¬s = "" := by
  obtain ⟨t, ht⟩ := h
  intro he
  rw [he] at ht
  simp at ht

/-- Dropping whitespace skips over an all-whitespace block. -/
theorem dropWhile_ws_all (a b : List Char) (ha : ∀ x ∈ a, wsChar x) :
    (a ++ b).dropWhile wsChar = b.dropWhile wsChar := by
  induction a with
  | nil => rfl
  | cons c t ih =>
    rw [List.cons_append, List.dropWhile_cons_of_pos (ha c (by simp))]
    exact ih (fun x hx => ha x (by simp [hx]))

/-- A list that is whitespace on both sides of an angle-delimited middle
strips to the middle. -/
theorem pyStripList_sandwich (wa wb mid : List Char)
    (hwa : ∀ x ∈ wa, wsChar x) (hwb : ∀ x ∈ wb, wsChar x)
    (hh : ∃ t, mid = '<' :: t) (hl : ∃ u, mid = u ++ ['>']) :
    pyStripList (wa ++ mid ++ wb) = mid := by
  obtain ⟨t, ht⟩ := hh
  obtain ⟨u, hu⟩ := hl
  unfold pyStripList
  have h1 : (wa ++ mid ++ wb).dropWhile wsChar = mid ++ wb := by
    rw [List.append_assoc, dropWhile_ws_all _ _ hwa, ht, List.cons_append,
      List.dropWhile_cons_of_neg (by decide), ← List.cons_append, ← ht]
  rw [h1]
  have h2 : (mid ++ wb).reverse = wb.reverse ++ ('>' :: u.reverse) := by
    rw [hu, List.reverse_append, List.reverse_append]
    simp
  rw [h2, dropWhile_ws_all _ _ (fun x hx => hwb x (List.mem_reverse.mp hx)),
    List.dropWhile_cons_of_neg (by decide)]
  rw [List.reverse_cons, List.reverse_reverse, ← hu]

/-- String version of the sandwich lemma. -/
theorem pyStrip_sandwich (wa wb m : String)
    (hwa : ∀ x ∈ wa.data, wsChar x) (hwb : ∀ x ∈ wb.data, wsChar x)
    (hL : angleL m) (hR : angleR m) :
    pyStrip (wa ++ m ++ wb) = m := by
  obtain ⟨t, ht⟩ := hL
  obtain ⟨u, hu⟩ := hR
  apply String.ext
  show pyStripList (wa ++ m ++ wb).data = m.data
  rw [String.data_append, String.data_append]
  exact pyStripList_sandwich wa.data wb.data m.data hwa hwb ⟨t, ht⟩ ⟨u, hu⟩

/-- An all-whitespace string strips to the empty string. -/
theorem pyStrip_allws (s : String) (h : ∀ x ∈ s.data, wsChar x) :
    pyStrip s = "" := by
  apply String.ext
  show pyStripList s.data = "".data
  have h1 : s.data.dropWhile wsChar = [] := by
    have := dropWhile_ws_all s.data [] h
    simpa using this
  unfold pyStripList
  rw [h1]
  rfl

theorem nlRep_snoc (n : Nat) : nlRep (n + 1) = nlRep n ++ "\n" := by
  induction n with
  | zero => rfl
  | succ k ih =>
    show "\n" ++ nlRep (k + 1) = ("\n" ++ nlRep k) ++ "\n"
    rw [ih, String.append_assoc]

theorem nlRep_allws (n : Nat) : ∀ x ∈ (nlRep n).data, wsChar x := by
  induction n with
  | zero => intro x hx; simp [nlRep] at hx
  | succ k ih =>
    intro x hx
    rw [show nlRep (k + 1) = "\n" ++ nlRep k from rfl,
      String.data_append] at hx
    rcases List.mem_append.mp hx with hx | hx
    · simp at hx; rw [hx]; decide
    · exact ih x hx

/-- Closed form of the raw `create_many_to_one` accumulator. -/
theorem foldRaw_eq (bl : List String) :
    ∀ acc, foldRaw acc bl = nlRep bl.length ++ (acc ++ sconcat bl) := by
  induction bl with
  | nil => intro acc; simp [foldRaw, nlRep, sconcat, String.empty_append,
      String.append_empty]
  | cons b bl ih =>
    intro acc
    show foldRaw ("\n" ++ acc ++ b) bl = _
    rw [ih, List.length_cons, nlRep_snoc]
    simp [sconcat, String.append_assoc]

/-- Concatenating blocks that each carry the trailing separator equals the
separator-joined cores followed by one trailing separator. -/
theorem sconcat_map_trailing (t : String) (c : String) (cs : List String) :
    sconcat ((c :: cs).map (fun x => x ++ t)) =
      sepJoin t (c :: cs) ++ t := by
  induction cs generalizing c with
  | nil => simp [sconcat, sepJoin, String.append_empty]
  | cons c2 cs ih =>
    show (c ++ t) ++ sconcat ((c2 :: cs).map (fun x => x ++ t)) = _
    rw [ih]
    show (c ++ t) ++ (sepJoin t (c2 :: cs) ++ t)
      = c ++ t ++ sepJoin t (c2 :: cs) ++ t
    rw [String.append_assoc (c ++ t)]

/-- A separator-join of angle-delimited non-empty parts is itself
angle-delimited. -/
theorem angle_sepJoin (sep : String) (c : String) (cs : List String)
    (h : ∀ x ∈ c :: cs, angleL x ∧ angleR x) :
    angleL (sepJoin sep (c :: cs)) ∧ angleR (sepJoin sep (c :: cs)) := by
  induction cs generalizing c with
  | nil => exact h c (by simp)
  | cons c2 cs ih =>
    show angleL (c ++ sep ++ sepJoin sep (c2 :: cs)) ∧
      angleR (c ++ sep ++ sepJoin sep (c2 :: cs))
    have h2 := ih c2 (fun x hx => h x (List.mem_cons_of_mem c hx))
    exact ⟨angleL_append _ _ (angleL_append _ _ (h c (by simp)).1),
      angleR_append _ _ h2.2⟩

/-- `sepJoin` of a non-empty list as head plus separator-prefixed tail. -/
theorem sepJoin_cons_sconcat (sep : String) (e : String) (es : List String) :
    sepJoin sep (e :: es) = e ++ sconcat (es.map (fun s => sep ++ s)) := by
  induction es generalizing e with
  | nil => simp [sepJoin, sconcat, String.append_empty]
  | cons x xs ih =>
    show e ++ sep ++ sepJoin sep (x :: xs) = _
    rw [ih x]
    show e ++ sep ++ (x ++ sconcat (xs.map (fun s => sep ++ s)))
      = e ++ ((sep ++ x) ++ sconcat (xs.map (fun s => sep ++ s)))
    rw [String.append_assoc, String.append_assoc]

/-- Mapping a post-composition through `optMapM`. -/
theorem optMapM_map_post (f : α → Option β) (g : β → γ) (l : List α) :
    optMapM (fun x => (f x).map g) l = (optMapM f l).map (List.map g) := by
  induction l with
  | nil => rfl
  | cons a l ih =>
    cases hf : f a with
    | none => simp [optMapM, hf]
    | some b =>
      cases hm : optMapM f l with
      | none => simp [optMapM, hf, hm, ih]
      | some bs => simp [optMapM, hf, hm, ih]

/-- Membership in an `optMapM` result comes from a source element. -/
theorem optMapM_mem (f : α → Option β) (l : List α) (bs : List β)
    (h : optMapM f l = some bs) :
    ∀ b ∈ bs, ∃ a ∈ l, f a = some b := by
  induction l generalizing bs with
  | nil =>
    intro b hb
    cases bs with
    | nil => simp at hb
    | cons x xs => simp [optMapM] at h
  | cons a l ih =>
    intro b hb
    simp only [optMapM] at h
    cases hf : f a with
    | none => rw [hf] at h; exact absurd h (by simp)
    | some b1 =>
      rw [hf] at h
      cases hm : optMapM f l with
      | none => rw [hm] at h; exact absurd h (by simp)
      | some bs1 =>
        rw [hm] at h
        simp only [Option.some.injEq] at h
        rw [← h] at hb
        rcases List.mem_cons.mp hb with hb | hb
        · exact ⟨a, by simp, by rw [hf, hb]⟩
        · obtain ⟨a2, ha2, hfa2⟩ := ih bs1 hm b hb
          exact ⟨a2, by simp [ha2], hfa2⟩

theorem angle_bsTag (item : ByteSequence) (seq : String) :
    angleL (bsTag item seq) ∧ angleR (bsTag item seq) := by
  unfold bsTag
  constructor
  · apply angleL_append
    apply angleL_append
    apply angleL_append
    apply angleL_append
    apply angleL_append
    apply angleL_append
    apply angleL_append
    apply angleL_append
    exact ⟨"ByteSequence Reference=\"".data, by decide⟩
  · apply angleR_append
    exact ⟨"\"/".data, by decide⟩

theorem angle_blockOf (sig : InternalSignature) (b : String)
    (h : blockOf sig = some b) : angleL b ∧ angleR b := by
  simp only [blockOf] at h
  cases hb : create_one_to_many_byte_sequence sig.byte_sequences with
  | none => rw [hb] at h; exact absurd h (by simp)
  | some bs =>
    rw [hb] at h
    simp only [Option.map_some', Option.some.injEq] at h
    rw [← h]
    constructor
    · apply angleL_append
      apply angleL_append
      apply angleL_append
      apply angleL_append
      exact ⟨"InternalSignature ID=\"".data, by decide⟩
    · apply angleR_append
      exact ⟨"\n</InternalSignature".data, by decide⟩

/-- One iteration of the `create_one_to_many` loop on a non-empty stripped
accumulator. -/
theorem stripStep_cons (s e : String) (hsL : angleL s) (_hsR : angleR s)
    (_heL : angleL e) (heR : angleR e) :
    pyStrip ("\n" ++ s ++ "\n    " ++ e ++ "\n        ") =
      s ++ "\n    " ++ e := by
  have hm : ("\n" ++ s ++ "\n    " ++ e ++ "\n        ")
      = "\n" ++ (s ++ "\n    " ++ e) ++ "\n        " := by
    simp [String.append_assoc]
  rw [hm]
  exact pyStrip_sandwich ("\n") ("\n        ") (s ++ "\n    " ++ e)
    (by decide) (by decide)
    (angleL_append _ _ (angleL_append _ _ hsL))
    (angleR_append _ _ heR)

/-- One iteration of the `create_one_to_many` loop on the empty stripped
accumulator. -/
theorem stripStep_empty (e : String) (heL : angleL e) (heR : angleR e) :
    pyStrip ("\n" ++ "" ++ "\n    " ++ e ++ "\n        ") = e :=
  pyStrip_sandwich ("\n" ++ "" ++ "\n    ") ("\n        ") e
    (by decide) (by decide) heL heR

/-- Generalized-accumulator closed form of the `create_one_to_many` fold:
from a stripped angle-delimited accumulator, the loop appends the rendered
entries in order, separated by the four-space separator. -/
theorem one_to_many_go (bss : List ByteSequence) :
    ∀ acc : String, angleL (pyStrip acc) → angleR (pyStrip acc) →
      (optFoldl (fun acc item =>
        (encodeSeq item).map fun seq =>
          "\n" ++ pyStrip acc ++ "\n    " ++ bsTag item seq ++ "\n        ")
        acc bss).map pyStrip =
      (optMapM entryOf bss).map
        (fun es => pyStrip acc ++
          sconcat (es.map (fun e => "\n    " ++ e))) := by
  induction bss with
  | nil =>
    intro acc _ _
    simp [optFoldl, optMapM, sconcat, String.append_empty]
  | cons item rest ih =>
    intro acc haL haR
    cases he : encodeSeq item with
    | none => simp [optFoldl, optMapM, entryOf, he]
    | some seq =>
      have hentry : entryOf item = some (bsTag item seq) := by
        simp [entryOf, he]
      have hab := angle_bsTag item seq
      have hacc2 : pyStrip ("\n" ++ pyStrip acc ++ "\n    " ++
          bsTag item seq ++ "\n        ")
          = pyStrip acc ++ "\n    " ++ bsTag item seq :=
        stripStep_cons (pyStrip acc) (bsTag item seq) haL haR hab.1 hab.2
      have haL2 : angleL (pyStrip ("\n" ++ pyStrip acc ++ "\n    " ++
          bsTag item seq ++ "\n        ")) := by
        rw [hacc2]; exact angleL_append _ _ (angleL_append _ _ haL)
      have haR2 : angleR (pyStrip ("\n" ++ pyStrip acc ++ "\n    " ++
          bsTag item seq ++ "\n        ")) := by
        rw [hacc2]; exact angleR_append _ _ hab.2
      have hfold : (optFoldl (fun acc item =>
          (encodeSeq item).map fun seq =>
            "\n" ++ pyStrip acc ++ "\n    " ++ bsTag item seq ++
              "\n        ") acc (item :: rest))
          = optFoldl (fun acc item =>
          (encodeSeq item).map fun seq =>
            "\n" ++ pyStrip acc ++ "\n    " ++ bsTag item seq ++
              "\n        ")
          ("\n" ++ pyStrip acc ++ "\n    " ++ bsTag item seq ++
            "\n        ") rest := by
        simp [optFoldl, he]
      rw [hfold, ih _ haL2 haR2, hacc2]
      cases hm : optMapM entryOf rest with
      | none => simp [optMapM, hentry, hm]
      | some es =>
        simp [optMapM, hentry, hm, sconcat, String.append_assoc]

/-- `create_one_to_many_byte_sequence` in closed form: the rendered entries
joined in order. -/
theorem one_to_many_closed (bss : List ByteSequence) :
    create_one_to_many_byte_sequence bss =
      (optMapM entryOf bss).map (sepJoin "\n    ") := by
  cases bss with
  | nil => rfl
  | cons item rest =>
    unfold create_one_to_many_byte_sequence
    cases he : encodeSeq item with
    | none => simp [optFoldl, optMapM, entryOf, he]
    | some seq =>
      have hentry : entryOf item = some (bsTag item seq) := by
        simp [entryOf, he]
      have hab := angle_bsTag item seq
      have h0 : pyStrip ("" : String) = "" := rfl
      have hacc1 : pyStrip ("\n" ++ pyStrip ("" : String) ++ "\n    " ++
          bsTag item seq ++ "\n        ") = bsTag item seq := by
        rw [h0]
        exact stripStep_empty (bsTag item seq) hab.1 hab.2
      have haL1 : angleL (pyStrip ("\n" ++ pyStrip ("" : String) ++
          "\n    " ++ bsTag item seq ++ "\n        ")) := by
        rw [hacc1]; exact hab.1
      have haR1 : angleR (pyStrip ("\n" ++ pyStrip ("" : String) ++
          "\n    " ++ bsTag item seq ++ "\n        ")) := by
        rw [hacc1]; exact hab.2
      have hfold : (optFoldl (fun acc item =>
          (encodeSeq item).map fun seq =>
            "\n" ++ pyStrip acc ++ "\n    " ++ bsTag item seq ++
              "\n        ") ("" : String) (item :: rest))
          = optFoldl (fun acc item =>
          (encodeSeq item).map fun seq =>
            "\n" ++ pyStrip acc ++ "\n    " ++ bsTag item seq ++
              "\n        ")
          ("\n" ++ pyStrip ("" : String) ++ "\n    " ++ bsTag item seq ++
            "\n        ") rest := by
        simp [optFoldl, he]
      rw [hfold, one_to_many_go rest _ haL1 haR1, hacc1]
      cases hm : optMapM entryOf rest with
      | none => simp [optMapM, hentry, hm]
      | some es =>
        simp only [optMapM, hentry, hm, Option.map_some', Option.some.injEq]
        exact (sepJoin_cons_sconcat "\n    " (bsTag item seq) es).symm

/-- The trailing literal of a `create_many_to_one` block splits into the
block core terminator and the loop whitespace. -/
theorem blockLit_split :
    ("\n</InternalSignature>\n        " : String) =
      "\n</InternalSignature>" ++ "\n        " := by decide

/-- Generalized-accumulator form of the `create_many_to_one` fold: it is
`foldRaw` over the rendered blocks (each with its trailing whitespace). -/
theorem many_to_one_go (sigs : List InternalSignature) :
    ∀ acc : String,
      optFoldl (fun acc internal =>
        (create_one_to_many_byte_sequence internal.byte_sequences).map
          fun bs =>
          "\n" ++ acc ++ "<InternalSignature ID=\"" ++ optStr internal.id ++
            "\" Specificity=\"Specific\">\n    " ++ bs ++
            "\n</InternalSignature>\n        ")
        acc sigs =
      (optMapM blockOf sigs).map
        (fun bl => foldRaw acc (bl.map (fun b => b ++ "\n        "))) := by
  induction sigs with
  | nil => intro acc; simp [optFoldl, optMapM, foldRaw]
  | cons sig rest ih =>
    intro acc
    cases hb : create_one_to_many_byte_sequence sig.byte_sequences with
    | none => simp [optFoldl, optMapM, blockOf, hb]
    | some bs =>
      have hblock : blockOf sig = some ("<InternalSignature ID=\"" ++
          optStr sig.id ++ "\" Specificity=\"Specific\">\n    " ++ bs ++
          "\n</InternalSignature>") := by
        simp [blockOf, hb]
      have hstep : optFoldl (fun acc internal =>
          (create_one_to_many_byte_sequence internal.byte_sequences).map
            fun bs =>
            "\n" ++ acc ++ "<InternalSignature ID=\"" ++
              optStr internal.id ++ "\" Specificity=\"Specific\">\n    " ++
              bs ++ "\n</InternalSignature>\n        ")
          acc (sig :: rest)
          = optFoldl (fun acc internal =>
          (create_one_to_many_byte_sequence internal.byte_sequences).map
            fun bs =>
            "\n" ++ acc ++ "<InternalSignature ID=\"" ++
              optStr internal.id ++ "\" Specificity=\"Specific\">\n    " ++
              bs ++ "\n</InternalSignature>\n        ")
          ("\n" ++ acc ++ "<InternalSignature ID=\"" ++ optStr sig.id ++
            "\" Specificity=\"Specific\">\n    " ++ bs ++
            "\n</InternalSignature>\n        ") rest := by
        simp [optFoldl, hb]
      rw [hstep, ih]
      cases hm : optMapM blockOf rest with
      | none => simp [optMapM, hblock, hm]
      | some bl =>
        simp only [optMapM, hblock, hm, Option.map_some', Option.some.injEq,
          List.map_cons]
        show foldRaw _ _ = foldRaw acc (("<InternalSignature ID=\"" ++
          optStr sig.id ++ "\" Specificity=\"Specific\">\n    " ++ bs ++
          "\n</InternalSignature>" ++ "\n        ") ::
          bl.map (fun b => b ++ "\n        "))
        show foldRaw _ _ = foldRaw ("\n" ++ acc ++
          ("<InternalSignature ID=\"" ++ optStr sig.id ++
            "\" Specificity=\"Specific\">\n    " ++ bs ++
            "\n</InternalSignature>" ++ "\n        "))
          (bl.map (fun b => b ++ "\n        "))
        congr 1
        rw [blockLit_split]
        simp [String.append_assoc]

/-- Stripping the raw accumulator of rendered blocks yields the
separator-joined block cores. -/
theorem strip_foldRaw_blocks (cores : List String)
    (h : ∀ c ∈ cores, angleL c ∧ angleR c) :
    pyStrip (foldRaw ("" : String)
        (cores.map (fun b => b ++ "\n        "))) =
      sepJoin "\n        " cores := by
  cases cores with
  | nil => rfl
  | cons c cs =>
    rw [foldRaw_eq, String.empty_append, List.length_map,
      sconcat_map_trailing]
    have hangle := angle_sepJoin "\n        " c cs h
    have hm : nlRep (c :: cs).length ++
        (sepJoin "\n        " (c :: cs) ++ "\n        ")
        = nlRep (c :: cs).length ++ sepJoin "\n        " (c :: cs) ++
          "\n        " := by
      rw [String.append_assoc]
    rw [hm]
    exact pyStrip_sandwich (nlRep (c :: cs).length) ("\n        ")
      (sepJoin "\n        " (c :: cs)) (nlRep_allws _) (by decide)
      hangle.1 hangle.2

/-- `create_many_to_one_byte_sequence` in closed form: the rendered blocks
joined in order. -/
theorem many_to_one_closed (sigs : List InternalSignature) :
    create_many_to_one_byte_sequence sigs =
      (optMapM blockOf sigs).map (sepJoin "\n        ") := by
  unfold create_many_to_one_byte_sequence
  rw [many_to_one_go sigs ("" : String)]
  cases hm : optMapM blockOf sigs with
  | none => rfl
  | some cores =>
    simp only [Option.map_some', Option.some.injEq]
    exact strip_foldRaw_blocks cores
      (fun c hc => by
        obtain ⟨sig, _, hsig⟩ := optMapM_mem blockOf sigs cores hm c hc
        exact angle_blockOf sig c hsig)

/-- C8: document assembly preserves input order everywhere.  The
file-format entries are the in-order map of the format records; the
internal-signature groups are the in-order rendering of the formats that
have internal signatures; each group joins its internal signatures in
original order; and each internal signature joins its byte-sequence
entries in original order.  No sorting or deduplication occurs: every
stage is a map/filter/join that keeps the input order. -/
theorem c8_assembly_preserves_order :
    (∀ bss : List ByteSequence,
      create_one_to_many_byte_sequence bss =
        (optMapM entryOf bss).map (sepJoin "\n    ")) ∧
    (∀ sigs : List InternalSignature,
      create_many_to_one_byte_sequence sigs =
        (optMapM blockOf sigs).map (sepJoin "\n        ")) ∧
    (∀ fmts : List Format,
      process_formats_parts fmts =
        (optMapM (fun f => create_many_to_one_byte_sequence
            f.internal_signatures)
          (fmts.filter (fun f => !f.internal_signatures.isEmpty))).map
          (fun iscs => (fmts.map create_file_format_collection, iscs))) := by
  refine ⟨one_to_many_closed, many_to_one_closed, ?_⟩
  intro fmts
  rw [process_formats_parts, formats_parts_go]
  cases hm : optMapM (fun f => create_many_to_one_byte_sequence
      f.internal_signatures)
      (fmts.filter (fun f => !f.internal_signatures.isEmpty)) with
  | none => rfl
  | some iscs => simp

/-! ### Non-interference with the never-rendered fields -/

theorem processBSNode_scrub (n : BSNode) :
    processBSNode (scrubBS n) = (processBSNode n).map (Option.map scrubSeq) := by
  cases hv : n.byteSequenceValue with
  | none => simp [processBSNode, scrubBS, hv]
  | some v =>
    by_cases hc : patternGate v = false ∧ v.length % 2 = 1
    · simp [processBSNode, scrubBS, hv, hc]
    · simp [processBSNode, scrubBS, hv, hc, scrubSeq]

theorem get_bytes_scrub (l : List BSNode) :
    get_bytes (l.map scrubBS) = (get_bytes l).map (List.map scrubSeq) := by
  induction l with
  | nil => rfl
  | cons n rest ih =>
    have hsc := processBSNode_scrub n
    cases hn : processBSNode n with
    | none =>
      rw [hn] at hsc
      simp [get_bytes, hsc, hn]
    | some r =>
      rw [hn] at hsc
      cases hr : get_bytes rest with
      | none => cases r <;> simp [get_bytes, hsc, hn, hr, ih]
      | some tail => cases r <;> simp [get_bytes, hsc, hn, hr, ih]

theorem get_internal_scrub (l : List ISNode) :
    get_internal (l.map scrubIS) =
      (get_internal l).map (List.map scrubSig) := by
  induction l with
  | nil => rfl
  | cons n rest ih =>
    have hb := get_bytes_scrub n.byteSequences
    cases hn : get_bytes n.byteSequences with
    | none =>
      rw [hn] at hb
      simp [get_internal, scrubIS, hb, hn]
    | some r =>
      rw [hn] at hb
      cases hr : get_internal rest with
      | none => simp [get_internal, scrubIS, hb, hn, hr, ih]
      | some tail => simp [get_internal, scrubIS, hb, hn, hr, ih, scrubSig]

theorem extract_format_scrub (r : Report) :
    extract_format (scrubReport r) =
      (extract_format r).map (Option.map scrubFmt) := by
  have hint := get_internal_scrub r.internalSignatures
  cases hn : get_internal r.internalSignatures with
  | none =>
    rw [hn] at hint
    simp [extract_format, scrubReport, hint, hn]
  | some isigs =>
    rw [hn] at hint
    simp only [extract_format, scrubReport, hint, hn, Option.map_some']
    have hmap : (isigs.map scrubSig).isEmpty = isigs.isEmpty := by
      cases isigs <;> rfl
    by_cases hc : ((get_external r.externalSignatures).isEmpty &&
        isigs.isEmpty) = true
    · have hc2 : ((get_external r.externalSignatures).isEmpty &&
          (isigs.map scrubSig).isEmpty) = true := by
        rw [Bool.and_eq_true] at hc ⊢
        rw [hmap]
        exact hc
      rw [if_pos hc, if_pos hc2]
      rfl
    · have hc2 : ¬((get_external r.externalSignatures).isEmpty &&
          (isigs.map scrubSig).isEmpty) = true := by
        intro hx
        apply hc
        rw [Bool.and_eq_true] at hx ⊢
        rw [hmap] at hx
        exact hx
      rw [if_neg hc, if_neg hc2]
      cases hnm : pyEscapeOpt r.formatName with
      | none => simp
      | some nm =>
        cases hvv : pyEscapeOpt r.formatVersion with
        | none => simp
        | some vr => simp [scrubFmt]

theorem process_pronom_formats_scrub (rs : List Report) :
    process_pronom_formats (rs.map scrubReport) =
      (process_pronom_formats rs).map (List.map scrubFmt) := by
  induction rs with
  | nil => rfl
  | cons r rest ih =>
    have hsc := extract_format_scrub r
    cases hr : extract_format r with
    | none =>
      rw [hr] at hsc
      simp [process_pronom_formats, hsc, hr]
    | some fr =>
      rw [hr] at hsc
      cases ht : process_pronom_formats rest with
      | none => cases fr <;> simp [process_pronom_formats, hsc, hr, ht, ih]
      | some tail => cases fr <;> simp [process_pronom_formats, hsc, hr, ht, ih]

theorem entryOf_scrub (b : ByteSequence) : entryOf (scrubSeq b) = entryOf b := rfl

theorem one_to_many_scrub (l : List ByteSequence) :
    create_one_to_many_byte_sequence (l.map scrubSeq) =
      create_one_to_many_byte_sequence l := by
  rw [one_to_many_closed, one_to_many_closed]
  congr 1
  induction l with
  | nil => rfl
  | cons b rest ih =>
    show optMapM entryOf (scrubSeq b :: rest.map scrubSeq) = _
    rw [optMapM, optMapM, entryOf_scrub, ih]

theorem blockOf_scrub (s : InternalSignature) :
    blockOf (scrubSig s) = blockOf s := by
  unfold blockOf scrubSig
  rw [one_to_many_scrub]

theorem many_to_one_scrub (l : List InternalSignature) :
    create_many_to_one_byte_sequence (l.map scrubSig) =
      create_many_to_one_byte_sequence l := by
  rw [many_to_one_closed, many_to_one_closed]
  congr 1
  induction l with
  | nil => rfl
  | cons s rest ih =>
    show optMapM blockOf (scrubSig s :: rest.map scrubSig) = _
    rw [optMapM, optMapM, blockOf_scrub, ih]

theorem create_ffc_scrub (f : Format) :
    create_file_format_collection (scrubFmt f) =
      create_file_format_collection f := by
  unfold create_file_format_collection scrubFmt
  simp only [List.map_map]
  rfl

theorem formatStep_scrub (acc : List String × List String) (f : Format) :
    formatStep acc (scrubFmt f) = formatStep acc f := by
  unfold formatStep
  have h1 : (scrubFmt f).internal_signatures =
      f.internal_signatures.map scrubSig := rfl
  have h2 : (f.internal_signatures.map scrubSig).isEmpty =
      f.internal_signatures.isEmpty := by
    cases f.internal_signatures <;> rfl
  rw [h1, h2, create_ffc_scrub f, many_to_one_scrub]

theorem parts_scrub (fmts : List Format) :
    ∀ acc, optFoldl formatStep acc (fmts.map scrubFmt) =
      optFoldl formatStep acc fmts := by
  induction fmts with
  | nil => intro acc; rfl
  | cons f rest ih =>
    intro acc
    show optFoldl formatStep acc (scrubFmt f :: rest.map scrubFmt) = _
    rw [optFoldl, formatStep_scrub, optFoldl]
    cases hs : formatStep acc f with
    | none => rfl
    | some acc2 => exact ih acc2

theorem pipeline_scrub (rs : List Report) (ts : String) :
    pipelineDoc (rs.map scrubReport) ts = pipelineDoc rs ts := by
  unfold pipelineDoc
  rw [process_pronom_formats_scrub]
  cases hp : process_pronom_formats rs with
  | none => rfl
  | some fmts =>
    have hparts : process_formats_parts (fmts.map scrubFmt) =
        process_formats_parts fmts := by
      unfold process_formats_parts
      exact parts_scrub fmts (([], []))
    simp [hparts]

/-- C10: the output document never depends on a byte sequence's
`Endianness` field or a format's `FormatTypes` field: two report lists
that agree after erasing those two fields produce identical documents
(same timestamp), including identical crash behaviour.  Both fields are
extracted and stored but never rendered. -/
theorem c10_endian_formattypes_noninterference (r1 r2 : List Report)
    (ts : String) (h : r1.map scrubReport = r2.map scrubReport) :
    pipelineDoc r1 ts = pipelineDoc r2 ts := by
  rw [← pipeline_scrub r1 ts, h, pipeline_scrub r2 ts]

/-- C10 witness: two one-report inputs differing exactly in `Endianness`
and `FormatTypes` yield the same document. -/
theorem c10_endian_formattypes_noninterference_witness :
    pipelineDoc [Report.mk (some ("1")) (some ("F")) (some ("1.0"))
      (some ("Audio"))
      [] [ISNode.mk (some ("3")) (some ("sig")) none
        [BSNode.mk (some ("7")) (some ("Absolute from BOF")) (some (""))
          (some ("")) (some ("Little-endian")) (some ("04"))]] [] []] "T" =
    pipelineDoc [Report.mk (some ("1")) (some ("F")) (some ("1.0"))
      (some ("Video"))
      [] [ISNode.mk (some ("3")) (some ("sig")) none
        [BSNode.mk (some ("7")) (some ("Absolute from BOF")) (some (""))
          (some ("")) (some ("Big-endian")) (some ("04"))]] [] []] "T" :=
  c10_endian_formattypes_noninterference _ _ ("T") (by decide)
